import Mathlib

/-
  Verification development for the rs-git-msg repository.

  Shallow embedding of the core of the program:
  * `parse_response`, `build_prompt` from src/commit.rs
    (CommitMessageGenerator);
  * the JSON content extraction of the Ollama provider (src/ai/ollama.rs)
    and of the OpenAI provider (src/ai/openai.rs);
  * `create_provider` from src/ai/provider_factory.rs together with the
    `Provider` enum of src/main.rs.

  Strings are modelled as `List Char`; Rust &str operations (lines, trim,
  trim_start_matches, contains, starts_with) are translated below.
-/

/-- Convert a Lean string literal to the `List Char` representation. -/
def s2l (s : String) : List Char := s.data

/-- Whitespace as used by Rust `char::is_whitespace` (the Unicode
White_Space set, reproduced code point by code point). -/
def rustIsWs (c : Char) : Bool :=
  c.toNat = 0x09 || c.toNat = 0x0A || c.toNat = 0x0B || c.toNat = 0x0C ||
  c.toNat = 0x0D || c.toNat = 0x20 || c.toNat = 0x85 || c.toNat = 0xA0 ||
  c.toNat = 0x1680 || (0x2000 ≤ c.toNat && c.toNat ≤ 0x200A) ||
  c.toNat = 0x2028 || c.toNat = 0x2029 || c.toNat = 0x202F ||
  c.toNat = 0x205F || c.toNat = 0x3000

/-- The code point ranges of the Unicode general categories Nd, Nl and
No (Unicode 14.0.0 tables), the class accepted by Rust
`char::is_numeric`. -/
def numRangeList : List (Nat × Nat) :=
  [(0x30, 0x39), (0xB2, 0xB3), (0xB9, 0xB9), (0xBC, 0xBE), (0x660, 0x669),
   (0x6F0, 0x6F9), (0x7C0, 0x7C9), (0x966, 0x96F), (0x9E6, 0x9EF),
   (0x9F4, 0x9F9), (0xA66, 0xA6F), (0xAE6, 0xAEF), (0xB66, 0xB6F),
   (0xB72, 0xB77), (0xBE6, 0xBF2), (0xC66, 0xC6F), (0xC78, 0xC7E),
   (0xCE6, 0xCEF), (0xD58, 0xD5E), (0xD66, 0xD78), (0xDE6, 0xDEF),
   (0xE50, 0xE59), (0xED0, 0xED9), (0xF20, 0xF33), (0x1040, 0x1049),
   (0x1090, 0x1099), (0x1369, 0x137C), (0x16EE, 0x16F0), (0x17E0, 0x17E9),
   (0x17F0, 0x17F9), (0x1810, 0x1819), (0x1946, 0x194F), (0x19D0, 0x19DA),
   (0x1A80, 0x1A89), (0x1A90, 0x1A99), (0x1B50, 0x1B59), (0x1BB0, 0x1BB9),
   (0x1C40, 0x1C49), (0x1C50, 0x1C59), (0x2070, 0x2070), (0x2074, 0x2079),
   (0x2080, 0x2089), (0x2150, 0x2182), (0x2185, 0x2189), (0x2460, 0x249B),
   (0x24EA, 0x24FF), (0x2776, 0x2793), (0x2CFD, 0x2CFD), (0x3007, 0x3007),
   (0x3021, 0x3029), (0x3038, 0x303A), (0x3192, 0x3195), (0x3220, 0x3229),
   (0x3248, 0x324F), (0x3251, 0x325F), (0x3280, 0x3289), (0x32B1, 0x32BF),
   (0xA620, 0xA629), (0xA6E6, 0xA6EF), (0xA830, 0xA835), (0xA8D0, 0xA8D9),
   (0xA900, 0xA909), (0xA9D0, 0xA9D9), (0xA9F0, 0xA9F9), (0xAA50, 0xAA59),
   (0xABF0, 0xABF9), (0xFF10, 0xFF19), (0x10107, 0x10133), (0x10140, 0x10178),
   (0x1018A, 0x1018B), (0x102E1, 0x102FB), (0x10320, 0x10323),
   (0x10341, 0x10341), (0x1034A, 0x1034A), (0x103D1, 0x103D5),
   (0x104A0, 0x104A9), (0x10858, 0x1085F), (0x10879, 0x1087F),
   (0x108A7, 0x108AF), (0x108FB, 0x108FF), (0x10916, 0x1091B),
   (0x109BC, 0x109BD), (0x109C0, 0x109CF), (0x109D2, 0x109FF),
   (0x10A40, 0x10A48), (0x10A7D, 0x10A7E), (0x10A9D, 0x10A9F),
   (0x10AEB, 0x10AEF), (0x10B58, 0x10B5F), (0x10B78, 0x10B7F),
   (0x10BA9, 0x10BAF), (0x10CFA, 0x10CFF), (0x10D30, 0x10D39),
   (0x10E60, 0x10E7E), (0x10F1D, 0x10F26), (0x10F51, 0x10F54),
   (0x10FC5, 0x10FCB), (0x11052, 0x1106F), (0x110F0, 0x110F9),
   (0x11136, 0x1113F), (0x111D0, 0x111D9), (0x111E1, 0x111F4),
   (0x112F0, 0x112F9), (0x11450, 0x11459), (0x114D0, 0x114D9),
   (0x11650, 0x11659), (0x116C0, 0x116C9), (0x11730, 0x1173B),
   (0x118E0, 0x118F2), (0x11950, 0x11959), (0x11C50, 0x11C6C),
   (0x11D50, 0x11D59), (0x11DA0, 0x11DA9), (0x11FC0, 0x11FD4),
   (0x12400, 0x1246E), (0x16A60, 0x16A69), (0x16AC0, 0x16AC9),
   (0x16B50, 0x16B59), (0x16B5B, 0x16B61), (0x16E80, 0x16E96),
   (0x1D2E0, 0x1D2F3), (0x1D360, 0x1D378), (0x1D7CE, 0x1D7FF),
   (0x1E140, 0x1E149), (0x1E2F0, 0x1E2F9), (0x1E8C7, 0x1E8CF),
   (0x1E950, 0x1E959), (0x1EC71, 0x1ECAB), (0x1ECAD, 0x1ECAF),
   (0x1ECB1, 0x1ECB4), (0x1ED01, 0x1ED2D), (0x1ED2F, 0x1ED3D),
   (0x1F100, 0x1F10C), (0x1FBF0, 0x1FBF9)]

/-- Rust `char::is_numeric`: the char belongs to one of the number
general categories Nd, Nl, No. -/
def rustIsNumeric (c : Char) : Bool :=
  numRangeList.any (fun p => p.1 ≤ c.toNat && c.toNat ≤ p.2)

/-- Rust `str::trim`: drop leading and trailing whitespace. -/
def trimWs (l : List Char) : List Char :=
  ((l.dropWhile rustIsWs).reverse.dropWhile rustIsWs).reverse

/-- The character class stripped from line fronts in parse_response:
`c.is_numeric() || c == '.' || c == ' ' || c == ')'` (src/commit.rs). -/
def isStripChar (c : Char) : Bool :=
  rustIsNumeric c || c == '.' || c == ' ' || c == ')'

/-- Rust `line.trim_start_matches(|c| c.is_numeric() || c == '.' || c == ' ' || c == ')')`. -/
def stripNumPre (l : List Char) : List Char := l.dropWhile isStripChar

/-- Does `hay` begin with `needle`? (helper for substring containment). -/
def leadMatch : List Char → List Char → Bool
  | [], _ => true
  | _ :: _, [] => false
  | a :: as, b :: bs => (a == b) && leadMatch as bs

/-- Rust `str::contains(&str)`: `needle` occurs contiguously in `hay`. -/
def listContainsSeq (needle : List Char) : List Char → Bool
  | [] => needle.isEmpty
  | c :: rest => leadMatch needle (c :: rest) || listContainsSeq needle rest

/-- The five conventional-commit markers recognized by parse_response. -/
def markerList : List (List Char) :=
  [s2l "feat(", s2l "fix(", s2l "docs(", s2l "style(", s2l "refactor("]

/-- A line contains one of the recognized type markers. -/
def markerMatch (l : List Char) : Bool :=
  markerList.any (fun m => listContainsSeq m l)

/-- Rust `line.starts_with(|c: char| c.is_numeric() && c.is_ascii_digit())`. -/
def startsWithDigit (l : List Char) : Bool :=
  match l with
  | [] => false
  | c :: _ => rustIsNumeric c && c.isDigit

/-- The tier-1 test of parse_response (src/commit.rs, count > 1 branch):
the line starts with an ASCII digit and contains a colon, or contains a
recognized marker anywhere. -/
def tier1Match (l : List Char) : Bool :=
  (startsWithDigit l && l.contains ':') || markerMatch l

/-- Strip the leading digit run and trim, as applied to every collected
line in parse_response. -/
def stripAndTrim (l : List Char) : List Char := trimWs (stripNumPre l)

/-- Helper for `rustLines`: the accumulated (reversed) line is emitted at
a `\n`; a trailing `\r` belonging to a `\r\n` ending is dropped. -/
def dropCrRev (acc : List Char) : List Char :=
  match acc with
  | [] => []
  | c :: acc2 => if c = '\r' then acc2.reverse else acc.reverse

/-- Worker for `rustLines`; `acc` holds the current line reversed. -/
def rustLinesAux (acc : List Char) : List Char → List (List Char)
  | [] => if acc.isEmpty then [] else [acc.reverse]
  | c :: cs =>
    if c = '\n' then dropCrRev acc :: rustLinesAux [] cs
    else rustLinesAux (c :: acc) cs

/-- Rust `str::lines`: split at `\n` (a preceding `\r` is removed); the
final line ending is optional and an empty final segment is not emitted. -/
def rustLines (s : List Char) : List (List Char) := rustLinesAux [] s

/-- The normalization step of parse_response: split into lines, trim each,
drop the empty ones. -/
def normLines (r : List Char) : List (List Char) :=
  ((rustLines r).map trimWs).filter (fun l => !l.isEmpty)

/-- Tier 1 of parse_response: when more than one message is expected,
collect every line passing `tier1Match`, stripped and trimmed. -/
def tier1 (lines : List (List Char)) (count : Nat) : List (List Char) :=
  if 1 < count then (lines.filter tier1Match).map stripAndTrim else []

/-- Tier 2 of parse_response: if nothing was collected, take the first
`count` colon-containing lines, stripped and trimmed. -/
def tier2 (lines : List (List Char)) (count : Nat) (m : List (List Char)) :
    List (List Char) :=
  if m.isEmpty then
    ((lines.filter (fun l => l.contains ':')).take count).map stripAndTrim
  else m

/-- Tier 3 of parse_response: if still empty, fall back to the first
non-empty line, stripped and trimmed. -/
def tier3 (lines : List (List Char)) (m : List (List Char)) :
    List (List Char) :=
  if m.isEmpty then
    match lines with
    | [] => []
    | l :: _ => [stripAndTrim l]
  else m

/-- `CommitMessageGenerator::parse_response` (src/commit.rs): early return
for count 0, the three tiers in order, and the final truncation. -/
def parse_response (r : List Char) (count : Nat) : List (List Char) :=
  if count = 0 then []
  else
    (tier3 (normLines r) (tier2 (normLines r) count (tier1 (normLines r) count))).take count

/-- Join a sequence of lines with a newline between consecutive lines. -/
def joinNL : List (List Char) → List Char
  | [] => []
  | [l] => l
  | l :: ls => l ++ '\n' :: joinNL ls

/-- A line is clean when it is non-empty, already trimmed, free of the
leading digit run stripped by the parser, and contains no newline. -/
def cleanLine (l : List Char) : Bool :=
  !l.isEmpty && (trimWs l == l) && (stripNumPre l == l) && !(l.contains '\n')

/-- JSON values as produced by serde_json parsing of a valid-JSON body.
Numbers are abstracted to integers; none of the extraction code inspects
numeric values, only shapes and string fields. -/
inductive Json where
  | null
  | bool (b : Bool)
  | num (n : Int)
  | str (s : List Char)
  | arr (elems : List Json)
  | obj (fields : List (List Char × Json))

/-- Field lookup in a JSON object (serde_json `Map::get`). -/
def lookupField : List (List Char × Json) → List Char → Option Json
  | [], _ => none
  | (k, v) :: rest, key => if k = key then some v else lookupField rest key

/-- serde_json `Value::get(key)`: field of an object, `None` otherwise. -/
def jGet (j : Json) (key : List Char) : Option Json :=
  match j with
  | .obj fields => lookupField fields key
  | _ => none

/-- serde_json `Value::as_str`. -/
def asStr : Json → Option (List Char)
  | .str s => some s
  | _ => none

/-- serde_json `Value::as_array`. -/
def asArr : Json → Option (List Json)
  | .arr elems => some elems
  | _ => none

/-- serde_json `Value::as_object`. -/
def asObj : Json → Option (List (List Char × Json))
  | .obj fields => some fields
  | _ => none

/-- `json.get(key).and_then(Value::as_str)`. -/
def strField (j : Json) (key : List Char) : Option (List Char) :=
  (jGet j key).bind asStr

/-- `json.get("message").and_then(|m| m.get("content")).and_then(Value::as_str)`
from src/ai/ollama.rs. -/
def msgContent (j : Json) : Option (List Char) :=
  ((jGet j (s2l "message")).bind (fun m => jGet m (s2l "content"))).bind asStr

/-- The content extraction of `OllamaProvider::generate_text`
(src/ai/ollama.rs, after the body has parsed as JSON): prefer the
`response` string field, else surface the `error` string field as an
error, else the nested `message.content`, else return the raw body. -/
def ollamaExtract (raw : List Char) (j : Json) : Except (List Char) (List Char) :=
  match strField j (s2l "response") with
  | some s => .ok s
  | none =>
    match strField j (s2l "error") with
    | some e => .error (s2l "Ollama API error: " ++ e)
    | none =>
      match msgContent j with
      | some c => .ok c
      | none => .ok raw

/-- `choices[0].message.content` extraction of src/ai/openai.rs:
`get("choices").and_then(as_array).and_then(first).and_then(get "message").and_then(get "content").and_then(as_str)`. -/
def choicesContent (j : Json) : Option (List Char) :=
  (((((jGet j (s2l "choices")).bind asArr).bind List.head?).bind
      (fun choice => jGet choice (s2l "message"))).bind
    (fun m => jGet m (s2l "content"))).bind asStr

/-- `get("error").and_then(as_object).and_then(|err| err.get("message")).and_then(as_str)`
of src/ai/openai.rs. -/
def errMessage (j : Json) : Option (List Char) :=
  (((jGet j (s2l "error")).bind asObj).bind
    (fun fields => lookupField fields (s2l "message"))).bind asStr

/-- The content extraction of `OpenAIProvider::generate_text`
(src/ai/openai.rs, after the body has parsed as JSON). -/
def openaiExtract (j : Json) : Except (List Char) (List Char) :=
  match choicesContent j with
  | some c => .ok c
  | none =>
    match errMessage j with
    | some m => .error (s2l "OpenAI API error: " ++ m)
    | none => .error (s2l "Failed to parse OpenAI response")

/-- The `Provider` enum of src/main.rs (variants Ollama, OpenAI, Gemini;
the spec names them LocalInference, HostedChat, HostedGenerative). -/
inductive ProviderKind where
  | ollama
  | openai
  | gemini
deriving DecidableEq

/-- The configuration a constructed provider holds (base URL, model,
credential, verbosity); the reqwest client handle carries no state of its
own and is omitted. -/
structure ProviderInst where
  kind : ProviderKind
  baseUrl : List Char
  model : List Char
  apiKey : Option (List Char)
  verbose : Bool
deriving DecidableEq

/-- `create_provider` (src/ai/provider_factory.rs). Its `match` has arms
only for `Provider::Ollama` and `Provider::OpenAI`; the `Provider::Gemini`
variant declared in src/main.rs has no arm (the match is non-exhaustive),
which is rendered here as `none`. Construction is pure: no network
traffic happens at factory time in the source. -/
def create_provider (providerType : ProviderKind) (model : List Char)
    (apiKey : Option (List Char)) (apiUrl : Option (List Char))
    (verbose : Bool) : Option (Except (List Char) ProviderInst) :=
  match providerType with
  | .ollama =>
    let baseUrl := apiUrl.getD (s2l "http://localhost:11434")
    some (.ok ⟨.ollama, baseUrl, model, none, verbose⟩)
  | .openai =>
    match apiKey with
    | none => some (.error (s2l "API key is required for OpenAI"))
    | some key =>
      let baseUrl := apiUrl.getD (s2l "https://api.openai.com/v1")
      some (.ok ⟨.openai, baseUrl, model, some key, verbose⟩)
  | .gemini => none

/-- `CommitMessageGenerator::build_prompt` (src/commit.rs). Note its
parameters: diff, branch name, count and the optional additional
instructions — the recent commit titles read in src/main.rs are not among
them. -/
def build_prompt (diff branchName : String) (count : Nat)
    (instructions : Option String) : String :=
  let p := "Generate " ++ toString count ++ " commit message(s) for the following changes.\n\n"
  let p := p ++ "Follow the Conventional Commits specification (https://www.conventionalcommits.org/):\n"
  let p := p ++ "- Format: type(scope): subject\n"
  let p := p ++ "- Types: feat, fix, docs, style, refactor, perf, test, build, ci, chore, revert\n"
  let p := p ++ "- Keep the subject concise (under 72 characters)\n"
  let p := p ++ "- Use imperative mood (\x22add\x22 not \x22added\x22)\n\n"
  let p := p ++ "Branch name: " ++ branchName ++ "\n\n"
  let p :=
    match instructions with
    | some i => p ++ "Additional context: " ++ i ++ "\n\n"
    | none => p
  let p := p ++ "Diff:\n\x60\x60\x60\n" ++ diff ++ "\n\x60\x60\x60\n\n"
  p ++ "Provide exactly " ++ toString count ++ " commit message(s) in the format \x27type(scope): subject\x27, numbered if more than one."

theorem parse_response_pos (r : List Char) (count : Nat) (h : count ≠ 0) :
    parse_response r count
      = (tier3 (normLines r)
          (tier2 (normLines r) count (tier1 (normLines r) count))).take count := by
  rw [parse_response, if_neg h]

theorem dropWhile_fix_head {α : Type} {p : α → Bool} {l : List α}
    (h : List.dropWhile p l = l) : ∀ c, l.head? = some c → p c = false := by
  cases l with
  | nil => intro c hc; simp at hc
  | cons a t =>
    intro c hc
    have hac : a = c := by simpa using hc
    subst hac
    by_contra hp
    have hpa : p a = true := by simpa using hp
    rw [List.dropWhile_cons, if_pos hpa] at h
    have hlen := congrArg List.length h
    have hle := (List.dropWhile_suffix (l := t) p).length_le
    simp at hlen
    omega

theorem trimWs_fix {l : List Char} (h : trimWs l = l) :
    l.dropWhile rustIsWs = l ∧ l.reverse.dropWhile rustIsWs = l.reverse := by
  have len_h := congrArg List.length h
  rw [trimWs, List.length_reverse] at len_h
  have l1 : ((l.dropWhile rustIsWs).reverse.dropWhile rustIsWs).length
      ≤ (l.dropWhile rustIsWs).reverse.length :=
    (List.dropWhile_suffix _).length_le
  have l2 : (l.dropWhile rustIsWs).length ≤ l.length :=
    (List.dropWhile_suffix _).length_le
  rw [List.length_reverse] at l1
  have e2 : (l.dropWhile rustIsWs).length = l.length := by omega
  have h1 : l.dropWhile rustIsWs = l := (List.dropWhile_suffix _).eq_of_length e2
  have h2 : l.reverse.dropWhile rustIsWs = l.reverse := by
    have hh : trimWs l = (l.reverse.dropWhile rustIsWs).reverse := by rw [trimWs, h1]
    rw [h] at hh
    have := congrArg List.reverse hh
    simpa using this.symm
  exact ⟨h1, h2⟩

theorem cleanLine_spec {l : List Char} (h : cleanLine l = true) :
    l ≠ [] ∧ trimWs l = l ∧ stripNumPre l = l ∧ l.contains '\n' = false := by
  rw [cleanLine] at h
  simp only [Bool.and_eq_true, Bool.not_eq_true', beq_iff_eq,
    List.isEmpty_eq_false] at h
  exact ⟨h.1.1.1, h.1.1.2, h.1.2, h.2⟩

theorem contains_false_not_mem {l : List Char} {a : Char}
    (h : l.contains a = false) : a ∉ l := by
  intro hm
  have he := List.elem_iff.mpr hm
  rw [show List.elem a l = l.contains a from rfl, h] at he
  cases he

theorem clean_not_startsDigit {l : List Char} (h : stripNumPre l = l) :
    startsWithDigit l = false := by
  cases l with
  | nil => rfl
  | cons c t =>
    have hc : isStripChar c = false := dropWhile_fix_head h c rfl
    cases hn : rustIsNumeric c with
    | false => simp [startsWithDigit, hn]
    | true => rw [isStripChar, hn] at hc; simp at hc

theorem clean_last_not_ws {l : List Char} (h : trimWs l = l) :
    ∀ c, l.reverse.head? = some c → rustIsWs c = false :=
  dropWhile_fix_head (trimWs_fix h).2

theorem dropCrRev_rev {l : List Char}
    (h : ∀ c, l.reverse.head? = some c → rustIsWs c = false) :
    dropCrRev l.reverse = l := by
  cases hr : l.reverse with
  | nil => simp [dropCrRev, List.reverse_eq_nil_iff.mp hr]
  | cons c t =>
    have hc : rustIsWs c = false := h c (by rw [hr]; rfl)
    have hcr : ¬ (c = '\r') := by
      intro he
      subst he
      rw [show rustIsWs '\x0d' = true from by decide] at hc
      cases hc
    rw [dropCrRev, if_neg hcr, ← hr, List.reverse_reverse]

theorem rla_nl (acc rest : List Char) :
    rustLinesAux acc ('\n' :: rest) = dropCrRev acc :: rustLinesAux [] rest := by
  simp [rustLinesAux]

theorem rla_append : ∀ (l : List Char), '\n' ∉ l → ∀ (acc rest : List Char),
    rustLinesAux acc (l ++ rest) = rustLinesAux (l.reverse ++ acc) rest := by
  intro l
  induction l with
  | nil => intro _ acc rest; simp
  | cons c l2 ih =>
    intro h acc rest
    have hc : ¬ (c = '\n') := by
      intro he
      exact h (by rw [he]; exact List.mem_cons_self _ _)
    rw [List.cons_append]
    show (if c = '\n' then dropCrRev acc :: rustLinesAux [] (l2 ++ rest)
          else rustLinesAux (c :: acc) (l2 ++ rest)) = _
    rw [if_neg hc, ih (fun hm => h (List.mem_cons_of_mem _ hm)) (c :: acc) rest]
    congr 1
    simp [List.reverse_cons, List.append_assoc]

theorem rla_no_nl : ∀ (l : List Char), '\n' ∉ l → ∀ (acc : List Char),
    rustLinesAux acc l
      = if acc.isEmpty && l.isEmpty then [] else [acc.reverse ++ l] := by
  intro l
  induction l with
  | nil => intro _ acc; cases ha : acc.isEmpty <;> simp [rustLinesAux, ha]
  | cons c l2 ih =>
    intro h acc
    have hc : ¬ (c = '\n') := by
      intro he
      exact h (by rw [he]; exact List.mem_cons_self _ _)
    show (if c = '\n' then dropCrRev acc :: rustLinesAux [] l2
          else rustLinesAux (c :: acc) l2) = _
    rw [if_neg hc, ih (fun hm => h (List.mem_cons_of_mem _ hm)) (c :: acc)]
    simp [List.reverse_cons, List.append_assoc]

theorem map_fix {α : Type} {f : α → α} : ∀ {l : List α},
    (∀ a ∈ l, f a = a) → l.map f = l := by
  intro l
  induction l with
  | nil => intro _; rfl
  | cons a t ih =>
    intro h
    rw [List.map_cons, h a (List.mem_cons_self _ _),
      ih (fun x hx => h x (List.mem_cons_of_mem _ hx))]

theorem rustLines_join : ∀ (seq : List (List Char)),
    (∀ l ∈ seq, cleanLine l = true) → rustLines (joinNL seq) = seq := by
  intro seq
  induction seq with
  | nil => intro _; rfl
  | cons l ls ih =>
    intro h
    have hcl := cleanLine_spec (h l (List.mem_cons_self _ _))
    have hnl : '\n' ∉ l := contains_false_not_mem hcl.2.2.2
    cases ls with
    | nil =>
      rw [show joinNL [l] = l from rfl, rustLines, rla_no_nl l hnl []]
      have hne : l.isEmpty = false := by
        cases l with
        | nil => exact absurd rfl hcl.1
        | cons a t => rfl
      simp [hne]
    | cons x xs =>
      rw [rustLines, show joinNL (l :: x :: xs) = l ++ '\n' :: joinNL (x :: xs) from rfl,
        rla_append l hnl [] ('\n' :: joinNL (x :: xs)), List.append_nil, rla_nl,
        dropCrRev_rev (clean_last_not_ws hcl.2.1),
        show rustLinesAux [] (joinNL (x :: xs)) = rustLines (joinNL (x :: xs)) from rfl,
        ih (fun m hm => h m (List.mem_cons_of_mem _ hm))]

theorem stripAndTrim_fix {l : List Char} (h : cleanLine l = true) :
    stripAndTrim l = l := by
  have hs := cleanLine_spec h
  rw [stripAndTrim, hs.2.2.1, hs.2.1]

theorem normLines_join {seq : List (List Char)}
    (h : ∀ l ∈ seq, cleanLine l = true) : normLines (joinNL seq) = seq := by
  rw [normLines, rustLines_join seq h,
    map_fix (fun l hl => (cleanLine_spec (h l hl)).2.1)]
  rw [List.filter_eq_self.mpr]
  intro l hl
  simp only [Bool.not_eq_true', List.isEmpty_eq_false]
  exact (cleanLine_spec (h l hl)).1

/-- Claim C2: for every response string and every count k, the sequence
returned by parse_response has length at most k — in particular k = 0
yields the empty sequence regardless of response content. -/
theorem parse_response_length_le (r : List Char) (k : Nat) :
    (parse_response r k).length ≤ k := by
  by_cases hk : k = 0
  · subst hk
    rw [parse_response, if_pos rfl]
    exact Nat.le_refl 0
  · rw [parse_response_pos r k hk]
    simp [List.length_take]

/-- Claim C10: whenever the requested count is at least 1 and the response
has at least one line that is non-empty after trimming, parse_response
returns at least one message; the empty result only arises for count 0 or
an all-blank response. -/
theorem parse_response_nonempty (r : List Char) (k : Nat) (hk : 1 ≤ k)
    (hl : normLines r ≠ []) : parse_response r k ≠ [] := by
  have hk0 : k ≠ 0 := by omega
  rw [parse_response_pos r k hk0]
  intro hemp
  rcases List.take_eq_nil_iff.mp hemp with h | h
  · omega
  · rw [tier3.eq_def] at h
    by_cases hm : (tier2 (normLines r) k (tier1 (normLines r) k)).isEmpty = true
    · rw [if_pos hm] at h
      cases hln : normLines r with
      | nil => exact hl hln
      | cons a t => rw [hln] at h; simp at h
    · rw [if_neg hm] at h
      rw [h] at hm
      exact hm rfl

/-- Witness for claim C10 at a concrete input. -/
theorem parse_response_nonempty_inst : parse_response (s2l "hi") 1 ≠ [] :=
  parse_response_nonempty (s2l "hi") 1 (by decide) (by decide)

/-- Claim C6: if no trimmed non-empty line of the response contains a
colon or a recognized type marker, and at least one such line exists,
parse_response with count at least 1 returns exactly one message: the
first non-empty line with its leading digit run stripped and trimmed. -/
theorem parse_response_fallback (r : List Char) (k : Nat) (hk : 1 ≤ k)
    (l : List Char) (ls : List (List Char)) (hln : normLines r = l :: ls)
    (hcolon : ∀ m ∈ normLines r, m.contains ':' = false)
    (hmark : ∀ m ∈ normLines r, markerMatch m = false) :
    parse_response r k = [stripAndTrim l] := by
  have hk0 : k ≠ 0 := by omega
  rw [parse_response_pos r k hk0]
  have ht1 : tier1 (normLines r) k = [] := by
    rw [tier1]
    by_cases h1 : 1 < k
    · rw [if_pos h1, List.filter_eq_nil_iff.mpr, List.map_nil]
      intro m hm
      rw [tier1Match]
      simp [hmark m hm]
      exact fun _ => contains_false_not_mem (hcolon m hm)
    · rw [if_neg h1]
  have ht2 : tier2 (normLines r) k [] = [] := by
    show (((normLines r).filter (fun m => m.contains ':')).take k).map stripAndTrim = []
    rw [List.filter_eq_nil_iff.mpr
        (fun m hm => by simp; exact contains_false_not_mem (hcolon m hm)),
      List.take_nil, List.map_nil]
  rw [ht1, ht2, hln]
  show ([stripAndTrim l]).take k = [stripAndTrim l]
  cases k with
  | zero => omega
  | succ n => simp

/-- Witness for claim C6 at a concrete input. -/
theorem parse_response_fallback_inst :
    parse_response (s2l "just a simple message") 1
      = [stripAndTrim (s2l "just a simple message")] :=
  parse_response_fallback (s2l "just a simple message") 1 (by decide)
    (s2l "just a simple message") [] (by decide) (by decide) (by decide)

/-- Counterexample to claim C1 as stated: the response offers two numbered
lines carrying recognized markers, but with count 2 the code also collects
the digit-led colon line without a marker, so the result is not the two
marker lines. -/
theorem parse_response_tier1_cex :
    parse_response (s2l "1. chore: a\n2. feat(x): b\n3. fix(y): c") 2
      ≠ [s2l "feat(x): b", s2l "fix(y): c"] := by decide

/-- Claim C1 (amended): for count at least 2, when the trimmed non-empty
lines include at least count lines passing the tier-1 test (digit-led with
a colon, or containing a recognized marker), parse_response returns
exactly the first count such lines in order, stripped and trimmed. -/
theorem parse_response_tier1_exact (r : List Char) (k : Nat) (h2 : 2 ≤ k)
    (hc : k ≤ ((normLines r).filter tier1Match).length) :
    parse_response r k
      = (((normLines r).filter tier1Match).take k).map stripAndTrim := by
  have hk0 : k ≠ 0 := by omega
  have h1 : 1 < k := by omega
  rw [parse_response_pos r k hk0]
  have ht1 : tier1 (normLines r) k
      = ((normLines r).filter tier1Match).map stripAndTrim := by
    rw [tier1, if_pos h1]
  have hfne : (normLines r).filter tier1Match ≠ [] := by
    intro he
    rw [he] at hc
    simp at hc
    omega
  have hne : (((normLines r).filter tier1Match).map stripAndTrim).isEmpty = false := by
    cases hf : (normLines r).filter tier1Match with
    | nil => exact absurd hf hfne
    | cons a t => simp
  rw [ht1, tier2, if_neg (by simp [hne]), tier3.eq_def, if_neg (by simp [hne])]
  exact (List.map_take _ _ _).symm

/-- Witness for the amended claim C1 at a concrete input. -/
theorem parse_response_tier1_exact_inst :
    parse_response (s2l "1. feat(a): x\n2. fix(b): y") 2
      = (((normLines (s2l "1. feat(a): x\n2. fix(b): y")).filter tier1Match).take 2).map
          stripAndTrim :=
  parse_response_tier1_exact (s2l "1. feat(a): x\n2. fix(b): y") 2 (by decide) (by decide)

/-- Counterexample to claim C5 as stated: a clean two-line sequence mixing
a marker line with a plain colon line is not reproduced — tier 1 keeps
only the marker line and tier 2 is then skipped. -/
theorem parse_response_idem_cex :
    ([s2l "feat(x): a", s2l "chore: b"].all cleanLine = true)
    ∧ parse_response (joinNL [s2l "feat(x): a", s2l "chore: b"]) 2
        ≠ [s2l "feat(x): a", s2l "chore: b"] :=
  ⟨by decide, by decide⟩

/-- Claim C5 (amended): re-parsing a non-empty newline-joined sequence of
clean lines with count equal to its length reproduces the sequence when
the sequence is homogeneous: a single line, or all lines carry a
recognized marker, or no line carries a marker and every line contains a
colon. -/
theorem parse_response_idem (seq : List (List Char)) (hne : seq ≠ [])
    (hclean : ∀ l ∈ seq, cleanLine l = true)
    (hcase : seq.length = 1
      ∨ (∀ l ∈ seq, markerMatch l = true)
      ∨ ((∀ l ∈ seq, markerMatch l = false) ∧ (∀ l ∈ seq, l.contains ':' = true))) :
    parse_response (joinNL seq) seq.length = seq := by
  have hn : normLines (joinNL seq) = seq := normLines_join hclean
  have hlen0 : seq.length ≠ 0 := fun h => hne (List.length_eq_zero.mp h)
  have hie : seq.isEmpty = false := List.isEmpty_eq_false.mpr hne
  rw [parse_response_pos _ _ hlen0, hn]
  by_cases hl1 : seq.length = 1
  · obtain ⟨l, rfl⟩ := List.length_eq_one.mp hl1
    have hcl := hclean l (List.mem_cons_self _ _)
    have hfix := stripAndTrim_fix hcl
    have hlen : ([l] : List (List Char)).length = 1 := rfl
    rw [hlen]
    have ht1 : tier1 [l] 1 = [] := by rw [tier1, if_neg (by decide)]
    rw [ht1]
    cases hcol : l.contains ':' with
    | true =>
      have ht2 : tier2 [l] 1 [] = [l] := by
        show (([l].filter (fun m => m.contains ':')).take 1).map stripAndTrim = [l]
        rw [List.filter_cons, if_pos (by simpa using hcol)]
        simp [hfix]
      rw [ht2, tier3.eq_def, if_neg (by simp)]
      simp
    | false =>
      have ht2 : tier2 [l] 1 [] = [] := by
        show (([l].filter (fun m => m.contains ':')).take 1).map stripAndTrim = []
        rw [List.filter_cons, if_neg (by simp; exact contains_false_not_mem hcol)]
        simp
      rw [ht2, tier3.eq_def, if_pos (by simp)]
      simp [hfix]
  · have hl2 : 1 < seq.length := by
      have : 0 < seq.length := List.length_pos.mpr hne
      omega
    rcases hcase with h1 | hm | ⟨hnm, hcol⟩
    · exact absurd h1 hl1
    · have hfilter : seq.filter tier1Match = seq :=
        List.filter_eq_self.mpr (fun a ha => by rw [tier1Match]; simp [hm a ha])
      have hmap : seq.map stripAndTrim = seq :=
        map_fix (fun a ha => stripAndTrim_fix (hclean a ha))
      have ht1 : tier1 seq seq.length = seq := by
        rw [tier1, if_pos hl2, hfilter, hmap]
      rw [ht1, tier2, if_neg (by simp [hie]), tier3.eq_def, if_neg (by simp [hie]),
        List.take_length]
    · have hfilter1 : seq.filter tier1Match = [] :=
        List.filter_eq_nil_iff.mpr (fun a ha => by
          rw [tier1Match]
          have hsd : startsWithDigit a = false :=
            clean_not_startsDigit (cleanLine_spec (hclean a ha)).2.2.1
          simp [hsd, hnm a ha])
      have ht1 : tier1 seq seq.length = [] := by
        rw [tier1, if_pos hl2, hfilter1, List.map_nil]
      have hfilter2 : seq.filter (fun l => l.contains ':') = seq :=
        List.filter_eq_self.mpr (fun a ha => by simpa using hcol a ha)
      have ht2 : tier2 seq seq.length [] = seq := by
        show ((seq.filter (fun l => l.contains ':')).take seq.length).map stripAndTrim = seq
        rw [hfilter2, List.take_length,
          map_fix (fun a ha => stripAndTrim_fix (hclean a ha))]
      rw [ht1, ht2, tier3.eq_def, if_neg (by simp [hie]), List.take_length]

/-- Witness for the amended claim C5 at a concrete input. -/
theorem parse_response_idem_inst :
    parse_response (joinNL [s2l "feat(a): x", s2l "feat(b): y"]) 2
      = [s2l "feat(a): x", s2l "feat(b): y"] :=
  parse_response_idem [s2l "feat(a): x", s2l "feat(b): y"] (by decide) (by decide)
    (Or.inr (Or.inl (by decide)))

/-- Claim C7: for every valid-JSON body, the Ollama extraction follows the
response / error / message.content / raw-body chain and can only fail via
the error string field — an unparseable-response state is unreachable. -/
theorem ollamaExtract_never_hard_fails (raw : List Char) (j : Json) :
    (∀ s, strField j (s2l "response") = some s → ollamaExtract raw j = .ok s)
    ∧ (strField j (s2l "response") = none → ∀ e, strField j (s2l "error") = some e →
        ollamaExtract raw j = .error (s2l "Ollama API error: " ++ e))
    ∧ (strField j (s2l "response") = none → strField j (s2l "error") = none →
        ∀ c, msgContent j = some c → ollamaExtract raw j = .ok c)
    ∧ (strField j (s2l "response") = none → strField j (s2l "error") = none →
        msgContent j = none → ollamaExtract raw j = .ok raw)
    ∧ (∀ e, ollamaExtract raw j = .error e →
        ∃ m, strField j (s2l "error") = some m ∧ e = s2l "Ollama API error: " ++ m) := by
  refine ⟨?_, ?_, ?_, ?_, ?_⟩
  · intro s hs
    rw [ollamaExtract, hs]
  · intro h0 e he
    rw [ollamaExtract, h0, he]
  · intro h0 h1 c hc
    rw [ollamaExtract, h0, h1, hc]
  · intro h0 h1 h2
    rw [ollamaExtract, h0, h1, h2]
  · intro e he
    rw [ollamaExtract] at he
    cases h0 : strField j (s2l "response") with
    | some s => rw [h0] at he; cases he
    | none =>
      rw [h0] at he
      cases h1 : strField j (s2l "error") with
      | some m =>
        rw [h1] at he
        refine ⟨m, rfl, ?_⟩
        injection he with h
        exact h.symm
      | none =>
        rw [h1] at he
        cases h2 : msgContent j with
        | some c => rw [h2] at he; cases he
        | none => rw [h2] at he; cases he

/-- Witness for claim C7 at a concrete input: an empty JSON object falls
back to the raw body. -/
theorem ollamaExtract_never_hard_fails_inst :
    ollamaExtract (s2l "raw body") (Json.obj []) = .ok (s2l "raw body") :=
  (ollamaExtract_never_hard_fails (s2l "raw body") (Json.obj [])).2.2.2.1 rfl rfl rfl

/-- Claim C8: for every valid-JSON body, the OpenAI extraction returns the
first-choice message content on success, else surfaces error.message,
else fails with the unparseable-response error; every success comes from
the choices path, never from a raw-body fallback. -/
theorem openaiExtract_cases (j : Json) :
    (∀ c, choicesContent j = some c → openaiExtract j = .ok c)
    ∧ (choicesContent j = none → ∀ m, errMessage j = some m →
        openaiExtract j = .error (s2l "OpenAI API error: " ++ m))
    ∧ (choicesContent j = none → errMessage j = none →
        openaiExtract j = .error (s2l "Failed to parse OpenAI response"))
    ∧ (∀ s, openaiExtract j = .ok s → choicesContent j = some s) := by
  refine ⟨?_, ?_, ?_, ?_⟩
  · intro c hc
    rw [openaiExtract, hc]
  · intro h0 m hm
    rw [openaiExtract, h0, hm]
  · intro h0 h1
    rw [openaiExtract, h0, h1]
  · intro s hs
    rw [openaiExtract] at hs
    cases h0 : choicesContent j with
    | some c =>
      rw [h0] at hs
      injection hs with h
      exact congrArg some h
    | none =>
      rw [h0] at hs
      cases h1 : errMessage j with
      | some m => rw [h1] at hs; cases hs
      | none => rw [h1] at hs; cases hs

/-- Witness for claim C8: the concrete error payload of the spec scenario
surfaces error.message. -/
theorem openaiExtract_cases_inst :
    openaiExtract
        (Json.obj [(s2l "error", Json.obj [(s2l "message", Json.str (s2l "Invalid API key"))])])
      = .error (s2l "OpenAI API error: " ++ s2l "Invalid API key") :=
  (openaiExtract_cases
      (Json.obj [(s2l "error", Json.obj [(s2l "message", Json.str (s2l "Invalid API key"))])])).2.1
    rfl (s2l "Invalid API key") rfl

/-- Claim C9: constructing the OpenAI (HostedChat) provider without a
credential fails with the descriptive credential error, purely, before
any network traffic; with a credential and no URL override it succeeds
and holds the public default base URL. -/
theorem create_provider_openai_credential (model : List Char)
    (apiUrl : Option (List Char)) (verbose : Bool) :
    (create_provider .openai model none apiUrl verbose
        = some (.error (s2l "API key is required for OpenAI")))
    ∧ (∀ key, create_provider .openai model (some key) none verbose
        = some (.ok ⟨.openai, s2l "https://api.openai.com/v1", model, some key, verbose⟩)) :=
  ⟨rfl, fun _ => rfl⟩

/-- Claim C3: the factory match has no arm for the Gemini
(HostedGenerative) variant — `create_provider` defines no provider for it,
whatever the model, credential and URL, so the three-variant claim fails
on this code. -/
theorem create_provider_gemini_unhandled (model : List Char)
    (apiKey apiUrl : Option (List Char)) (verbose : Bool) :
    create_provider .gemini model apiKey apiUrl verbose = none := rfl

set_option maxRecDepth 40000 in
/-- Claim C4: the prompt built by build_prompt carries no recent-commits
section — evaluated at a concrete request, the string "Recent commits:"
does not occur in it (build_prompt does not even receive the titles). -/
theorem build_prompt_recent_commits_absent :
    listContainsSeq (s2l "Recent commits:")
      (s2l (build_prompt "diff text" "main" 1 none)) = false := by decide
